import Mathlib

/-!
Verification of the two Knora test-route scripts:
`webapi/_test_data/test_route/create-thing.py` (script 1) and
`webapi/_test_data/test_route/texts/createBEOLTEIMapping.py` (script 2).

The development embeds, as Lean definitions, the payloads the scripts
build, the requests they send, the JSON serialization they rely on
(Python's `json.dumps` / `json.loads`), and the control flow of each
script (the `try` body, `raise_for_status`, `print`, and the broad
`except` handlers), and proves the stated properties about them.
-/

namespace KnoraScripts

/-- JSON values as used by the scripts' payloads: strings, integers,
arrays and objects.  Objects keep insertion order, as Python dicts do
since Python 3.7, so members are a list of key/value pairs. -/
inductive JVal where
  | str : String → JVal
  | int : Int → JVal
  | arr : List JVal → JVal
  | obj : List (String × JVal) → JVal

/-- Hexadecimal digit character (lowercase for 10..15), as produced by
Python's `\uXXXX` escapes. -/
def hexDigit (n : Nat) : Char :=
  Char.ofNat (if n < 10 then 48 + n else 87 + n)

/-- Decimal digit character. -/
def digitChar (n : Nat) : Char :=
  Char.ofNat (48 + n)

/-- Numeric value of a hexadecimal digit character, if it is one. -/
def hexVal (c : Char) : Option Nat :=
  if '0' ≤ c ∧ c ≤ '9' then some (c.toNat - 48)
  else if 'a' ≤ c ∧ c ≤ 'f' then some (c.toNat - 87)
  else if 'A' ≤ c ∧ c ≤ 'F' then some (c.toNat - 55)
  else none

/-- Escape of one character inside a JSON string literal, modelled from
Python's `json.dumps` (its `ESCAPE_DCT`): quote and backslash are
escaped, the control characters with short escapes use them, the
remaining control characters use a `\u00XX` escape, and all other
characters are kept verbatim (as with `ensure_ascii=False`; the
`ensure_ascii=True` default additionally escapes non-ASCII characters,
which denotes the same string and does not affect any payload here, all
of which are ASCII). -/
def escapeChar (c : Char) : List Char :=
  if c = '"' then [ '\\' , '"' ]
  else if c = '\\' then [ '\\' , '\\' ]
  else if c = '\n' then [ '\\' , 'n' ]
  else if c = '\t' then [ '\\' , 't' ]
  else if c = '\r' then [ '\\' , 'r' ]
  else if c.toNat = 8 then [ '\\' , 'b' ]
  else if c.toNat = 12 then [ '\\' , 'f' ]
  else if c.toNat < 32 then
    [ '\\' , 'u' , '0' , '0' , hexDigit (c.toNat / 16), hexDigit (c.toNat % 16) ]
  else [c]

/-- Escape of a whole JSON string body. -/
def escape : List Char → List Char
  | [] => []
  | c :: cs => escapeChar c ++ escape cs

/-- Big-endian decimal digits of a natural number (`[n]` when `n < 10`). -/
def natDigitsBE (n : Nat) : List Nat :=
  if h : n < 10 then [n] else natDigitsBE (n / 10) ++ [n % 10]
termination_by n
decreasing_by exact Nat.div_lt_self (by omega) (by omega)

/-- Decimal digit characters of a natural number. -/
def natChars (n : Nat) : List Char :=
  (natDigitsBE n).map digitChar

/-- Serialization of an integer, as by Python's `json.dumps`. -/
def serializeInt (n : Int) : List Char :=
  if n < 0 then '-' :: natChars (-n).toNat else natChars n.toNat

mutual
/-- Serialization of a JSON value: the canonical output of Python's
`json.dumps` with its default separators `", "` and `": "`. -/
def serialize : JVal → List Char
  | .str s => '"' :: escape s.data ++ [ '"' ]
  | .int n => serializeInt n
  | .arr [] => [ '[' , ']' ]
  | .arr (v :: vs) => '[' :: (serialize v ++ itemsTail vs)
  | .obj [] => [ '{' , '}' ]
  | .obj ((k, v) :: ms) => '{' :: (kvChars k v ++ fieldsTail ms)
termination_by v => sizeOf v

/-- Serialization of the items of an array after the first one, up to and
including the closing bracket. -/
def itemsTail : List JVal → List Char
  | [] => [ ']' ]
  | v :: vs => ',' :: ' ' :: (serialize v ++ itemsTail vs)
termination_by vs => sizeOf vs

/-- Serialization of one `"key": value` object member. -/
def kvChars (k : String) (v : JVal) : List Char :=
  '"' :: escape k.data ++ '"' :: ':' :: ' ' :: serialize v
termination_by 1 + sizeOf v

/-- Serialization of the members of an object after the first one, up to
and including the closing brace. -/
def fieldsTail : List (String × JVal) → List Char
  | [] => [ '}' ]
  | (k, v) :: ms => ',' :: ' ' :: (kvChars k v ++ fieldsTail ms)
termination_by ms => sizeOf ms
end

/-- Model of Python's `json.dumps` (default separators). -/
def dumps (v : JVal) : String := String.mk (serialize v)

/-- Parsing of a run of decimal digits, with accumulator. -/
def parseDigits : List Char → Nat → Nat × List Char
  | [], acc => (acc, [])
  | c :: cs, acc =>
    if '0' ≤ c ∧ c ≤ '9' then parseDigits cs (10 * acc + (c.toNat - 48))
    else (acc, c :: cs)

/-- Parsing of a JSON integer (optional minus sign, then digits). -/
def parseInt : List Char → Option (Int × List Char)
  | [] => none
  | c :: cs =>
    if c = '-' then
      match cs with
      | [] => none
      | d :: ds =>
        if '0' ≤ d ∧ d ≤ '9' then
          some (-((parseDigits (d :: ds) 0).1 : Int), (parseDigits (d :: ds) 0).2)
        else none
    else if '0' ≤ c ∧ c ≤ '9' then
      some (((parseDigits (c :: cs) 0).1 : Int), (parseDigits (c :: cs) 0).2)
    else none

/-- Prepending of a character to the string part of a string-body parse
result. -/
def consFst (c : Char) : Option (List Char × List Char) → Option (List Char × List Char)
  | some (s, r) => some (c :: s, r)
  | none => none

/-- Parsing of a JSON string body (after the opening quote), returning
the unescaped characters and the input after the closing quote. -/
def parseStrBody : List Char → Option (List Char × List Char)
  | [] => none
  | c :: cs =>
    if c = '"' then some ([], cs)
    else if c = '\\' then
      match cs with
      | [] => none
      | e :: cs' =>
        if e = '"' then consFst '"' (parseStrBody cs')
        else if e = '\\' then consFst '\\' (parseStrBody cs')
        else if e = 'n' then consFst '\n' (parseStrBody cs')
        else if e = 't' then consFst '\t' (parseStrBody cs')
        else if e = 'r' then consFst '\r' (parseStrBody cs')
        else if e = 'b' then consFst (Char.ofNat 8) (parseStrBody cs')
        else if e = 'f' then consFst (Char.ofNat 12) (parseStrBody cs')
        else if e = 'u' then
          match cs' with
          | h1 :: h2 :: h3 :: h4 :: cs'' =>
            match hexVal h1, hexVal h2, hexVal h3, hexVal h4 with
            | some a, some b, some c2, some d =>
              consFst (Char.ofNat (4096 * a + 256 * b + 16 * c2 + d)) (parseStrBody cs'')
            | _, _, _, _ => none
          | _ => none
        else none
    else consFst c (parseStrBody cs)

mutual
/-- Fuel-indexed parsing of one JSON value in the canonical format
produced by `dumps`. -/
def parseVal : Nat → List Char → Option (JVal × List Char)
  | 0, _ => none
  | _ + 1, [] => none
  | f + 1, c :: cs =>
    if c = '"' then
      match parseStrBody cs with
      | some (s, rest) => some (.str (String.mk s), rest)
      | none => none
    else if c = '[' then
      match cs with
      | [] => none
      | d :: ds =>
        if d = ']' then some (.arr [], ds)
        else
          match parseVal f (d :: ds) with
          | some (v, rest) =>
            match parseItems f rest with
            | some (vs, rest') => some (.arr (v :: vs), rest')
            | none => none
          | none => none
    else if c = '{' then
      match cs with
      | [] => none
      | d :: ds =>
        if d = '}' then some (.obj [], ds)
        else if d = '"' then
          match parseStrBody ds with
          | some (k, rest) =>
            match rest with
            | ':' :: ' ' :: rest' =>
              match parseVal f rest' with
              | some (v, rest'') =>
                match parseFields f rest'' with
                | some (ms, rest3) => some (.obj ((String.mk k, v) :: ms), rest3)
                | none => none
              | none => none
            | _ => none
          | none => none
        else none
    else
      match parseInt (c :: cs) with
      | some (n, rest) => some (.int n, rest)
      | none => none

/-- Fuel-indexed parsing of the items of an array after the first one. -/
def parseItems : Nat → List Char → Option (List JVal × List Char)
  | 0, _ => none
  | _ + 1, [] => none
  | f + 1, c :: cs =>
    if c = ']' then some ([], cs)
    else if c = ',' then
      match cs with
      | ' ' :: cs' =>
        match parseVal f cs' with
        | some (v, rest) =>
          match parseItems f rest with
          | some (vs, rest') => some (v :: vs, rest')
          | none => none
        | none => none
      | _ => none
    else none

/-- Fuel-indexed parsing of the members of an object after the first
one. -/
def parseFields : Nat → List Char → Option (List (String × JVal) × List Char)
  | 0, _ => none
  | _ + 1, [] => none
  | f + 1, c :: cs =>
    if c = '}' then some ([], cs)
    else if c = ',' then
      match cs with
      | ' ' :: '"' :: cs' =>
        match parseStrBody cs' with
        | some (k, rest) =>
          match rest with
          | ':' :: ' ' :: rest' =>
            match parseVal f rest' with
            | some (v, rest'') =>
              match parseFields f rest'' with
              | some (ms, rest3) => some ((String.mk k, v) :: ms, rest3)
              | none => none
            | none => none
          | _ => none
        | none => none
      | _ => none
    else none
end

/-- Model of Python's `json.loads` on the canonical format produced by
`dumps`; fails when the input is not a single value consuming the whole
string.  The fuel `length + 1` is sufficient because every recursive
parsing step consumes at least one character. -/
def loads (s : String) : Option JVal :=
  match parseVal (s.data.length + 1) s.data with
  | some (v, []) => some v
  | _ => none

/-! ## Script 1: `create-thing.py`

Line-by-line embedding of the `try` body: `base_url` (line 10), the
first, dead `params` dict (lines 12-31), the `xml` literal (lines
33-37), the second `params` dict (lines 39-47), `props = json.dumps(params)`
(line 49) and the `requests.post` keyword arguments (lines 51-55). -/

/-- Base URL of script 1 (line 10). -/
def base_url : String := "http://localhost/v1/"

/-- The first dict assigned to `params` in script 1 (lines 12-31); it is
overwritten by the second assignment before being used. -/
def paramsFirst : JVal :=
  .obj [
    ("_link", .arr [
      .obj [("start", .int 0), ("end", .int 4),
            ("resid", .str "http://data.knora.org/9935159f67"),
            ("href", .str "http://data.knora.org/9935159f67")],
      .obj [("start", .int 5), ("end", .int 7),
            ("href", .str "http://www.google.ch")]]),
    ("bold", .arr [
      .obj [("start", .int 9), ("end", .int 11)],
      .obj [("start", .int 16), ("end", .int 18)]])]

/-- The triple-quoted `xml` literal of script 1 (lines 33-37), with its
exact whitespace. -/
def xmlLiteral : String :=
  "<?xml version=\"1.0\" encoding=\"UTF-8\"?>\n       <text>\n            <u><strong>This</strong></u> <u>text</u> <a class=\"salsah-link\" href=\"http://data.knora.org/9935159f67\">links</a> to a thing\n       </text>\n    "

/-- The second dict assigned to `params` in script 1 (lines 39-47), the
one actually serialized and sent. -/
def paramsSecond : JVal :=
  .obj [
    ("restype_id", .str "http://www.knora.org/ontology/anything#Thing"),
    ("label", .str "A thing to test with"),
    ("project_id", .str "http://data.knora.org/projects/anything"),
    ("properties", .obj [
      ("http://www.knora.org/ontology/anything#hasText", .arr [
        .obj [("richtext_value", .obj [
          ("xml", .str xmlLiteral),
          ("mapping_id", .str "http://data.knora.org/projects/standoff/mappings/StandardMapping")])]]),
      ("http://www.knora.org/ontology/anything#hasInteger", .arr [
        .obj [("int_value", .int 12345)]])])]

/-- The value held by the Python variable `params` at line 49: the
second assignment shadows the first, exactly as Python's reassignment
overwrites it. -/
def script1Params : JVal :=
  let params := paramsFirst
  let params := paramsSecond
  params

/-- The serialized body `props = json.dumps(params)` (line 49). -/
def props : String := dumps script1Params

/-- Shape of the single request script 1 issues (the keyword arguments
of its `requests.post` call). -/
structure Request1 where
  url : String
  body : String
  contentType : String
  auth : String × String
  httpProxy : String
  /-- The `timeout=` keyword of `requests.post`; `none` (the library
  default, waiting indefinitely) when the script does not pass one. -/
  timeout : Option Nat
deriving DecidableEq

/-- The request of script 1 (lines 51-55): URL `base_url + 'resources'`,
body `props`, the JSON content type, basic auth `('root', 'test')` and
the HTTP proxy. -/
def script1Request : Request1 :=
  { url := base_url ++ "resources"
    body := props
    contentType := "application/json; charset=utf8"
    auth := ("root", "test")
    httpProxy := "http://localhost:3333"
    timeout := none }

/-- The request script 1 would issue if the dead first assignment to
`params` (lines 12-31) were removed: stated from the spec's reading that
the program is equivalent to one without that assignment. -/
def script1RequestNoDead : Request1 :=
  { url := base_url ++ "resources"
    body := dumps paramsSecond
    contentType := "application/json; charset=utf8"
    auth := ("root", "test")
    httpProxy := "http://localhost:3333"
    timeout := none }

/-! ## Script 2: `createBEOLTEIMapping.py` -/

/-- The `mappingParams` dict of script 2 (lines 11-15). -/
def mappingParams : JVal :=
  .obj [
    ("http://api.knora.org/ontology/knora-api/v2#mappingHasName",
     .str "BEOLTEIMapping"),
    ("http://api.knora.org/ontology/knora-api/v2#attachedToProject",
     .str "http://rdfh.ch/projects/yTerZGyxjZVqFMNNKXCDPF"),
    ("http://www.w3.org/2000/01/rdf-schema#label",
     .str "TEI mapping")]

/-- Relative path of the XML file script 2 opens (line 19). -/
def xmlFilePath : String := "../../../src/main/resources/BEOLTEImapping.xml"

/-- Shape of the multipart request script 2 issues: ordinary form fields
(`data=`), file fields (`files=`, each a field name with a filename and
the file's content, passed through unchanged), auth and proxy. -/
structure Request2 where
  url : String
  formData : List (String × String)
  files : List (String × (String × String))
  auth : String × String
  httpProxy : String
  /-- The `timeout=` keyword of `requests.post`; `none` (the library
  default, waiting indefinitely) when the script does not pass one. -/
  timeout : Option Nat
deriving DecidableEq

/-- The request of script 2 (lines 17-21), as a function of the content
read from the XML file. -/
def script2Request (xmlContent : String) : Request2 :=
  { url := "http://localhost:3333/v2/mapping"
    formData := [("json", dumps mappingParams)]
    files := [("xml", ("BEOLTEImapping.xml", xmlContent))]
    auth := ("t.schweizer@unibas.ch", "test")
    httpProxy := "http://localhost:3333"
    timeout := none }

/-! ## Run semantics

Each script performs one blocking `requests.post`.  The environment
decides what that call does: either it returns a response (any status
and body text) or it raises a transport-level exception (connection
refused, DNS failure, ...).  For script 2 the environment additionally
decides whether the XML file exists and with what content; `open` at
line 19 is evaluated while building the `files=` argument, so a missing
file raises before any request is issued. -/

/-- Outcome of the single `requests.post` call, chosen by the
environment. -/
inductive PostOutcome where
  | ok : Nat → String → PostOutcome
  | exn : String → PostOutcome
deriving DecidableEq

/-- Result of one script run: the strings printed to standard output (in
order, one entry per `print`/`print_exc` call), the detail of an
uncaught exception if one escaped the script (forcing a traceback and a
non-zero exit), and how many POST requests were issued. -/
structure RunResult where
  output : List String
  uncaught : Option String
  posts : Nat
deriving DecidableEq

/-- Detail string of the `requests.HTTPError` raised by
`raise_for_status`, modelled from the `requests` library: it names the
status code and whether it is a client or a server error.
`raise_for_status` raises exactly for status codes in `[400, 600)`. -/
def httpErrorDetail (status : Nat) : String :=
  toString status ++ (if status < 500 then " Client Error" else " Server Error")

/-- Text printed by `traceback.print_exc()` for an exception with the
given detail line. -/
def tracebackText (detail : String) : String :=
  "Traceback (most recent call last):\n" ++ detail

/-- Detail of the `FileNotFoundError` raised by `open` when the XML file
is missing (script 2, line 19). -/
def fileNotFoundDetail : String :=
  "FileNotFoundError: [Errno 2] No such file or directory: " ++ xmlFilePath

/-- Banner printed first by script 1's `except` handler (line 60). -/
def script1ErrorBanner : String := "Knora API answered with an error:\n"

/-- Detail of the `NameError` raised inside script 1's `except` handler
when it evaluates `r.text` (line 62) although `r` was never bound. -/
def nameErrorDetail : String := "NameError: name 'r' is not defined"

/-- Run of script 1 (`create-thing.py`).  The `try` body builds the
payload, posts it, calls `r.raise_for_status()` and prints `r.text`.
The `except Exception` handler prints the banner, the exception detail
and `r.text`; when the post itself raised, `r` was never bound, so the
handler's `print(r.text)` raises a `NameError` that escapes the
script. -/
def run1 (post : PostOutcome) : RunResult :=
  match post with
  | .exn detail =>
    { output := [script1ErrorBanner, detail]
      uncaught := some nameErrorDetail
      posts := 1 }
  | .ok status text =>
    if 400 ≤ status ∧ status < 600 then
      { output := [script1ErrorBanner, httpErrorDetail status, text]
        uncaught := none
        posts := 1 }
    else
      { output := [text]
        uncaught := none
        posts := 1 }

/-- Run of script 2 (`createBEOLTEIMapping.py`).  The `try` body opens
the XML file (raising `FileNotFoundError` if it is missing, before any
request is issued), posts the multipart request, prints
`mappingRequest.text`, then calls `raise_for_status()`.  The bare
`except` handler prints the traceback of whatever was raised. -/
def run2 (file : Option String) (post : PostOutcome) : RunResult :=
  match file with
  | none =>
    { output := [tracebackText fileNotFoundDetail]
      uncaught := none
      posts := 0 }
  | some _ =>
    match post with
    | .exn detail =>
      { output := [tracebackText detail]
        uncaught := none
        posts := 1 }
    | .ok status text =>
      if 400 ≤ status ∧ status < 600 then
        { output := [text, tracebackText (httpErrorDetail status)]
          uncaught := none
          posts := 1 }
      else
        { output := [text]
          uncaught := none
          posts := 1 }

/-! ## Keys of a payload -/

/-- Top-level keys of a JSON object, in order. -/
def topKeys : JVal → List String
  | .obj ms => ms.map Prod.fst
  | _ => []

mutual
/-- All object keys occurring anywhere in a JSON value. -/
def allKeys : JVal → List String
  | .str _ => []
  | .int _ => []
  | .arr vs => allKeysArr vs
  | .obj ms => allKeysObj ms
termination_by v => sizeOf v

/-- All object keys occurring anywhere in a list of JSON values. -/
def allKeysArr : List JVal → List String
  | [] => []
  | v :: vs => allKeys v ++ allKeysArr vs
termination_by vs => sizeOf vs

/-- All object keys occurring anywhere in an object member list. -/
def allKeysObj : List (String × JVal) → List String
  | [] => []
  | (k, v) :: ms => k :: (allKeys v ++ allKeysObj ms)
termination_by ms => sizeOf ms
end

/-- Lookup of a top-level object member. -/
def objGet (v : JVal) (k : String) : Option JVal :=
  match v with
  | .obj ms => ms.lookup k
  | _ => none

/-- Characters that may legally follow a serialized value inside the
canonical output: a separator, a closing bracket or brace, or the end of
the input. -/
def sepRest : List Char → Prop
  | [] => True
  | c :: _ => c = ',' ∨ c = ']' ∨ c = '}'

/-- Input that does not begin with a decimal digit. -/
def noDigitHead : List Char → Prop
  | [] => True
  | c :: _ => ¬('0' ≤ c ∧ c ≤ '9')

/-! ## Round-trip of the string escaping -/

theorem hexVal_hexDigit : ∀ m, m < 16 → hexVal (hexDigit m) = some m := by decide

theorem parseStrBody_closeQuote (rest : List Char) :
    parseStrBody ('"' :: rest) = some ([], rest) := by
  rw [parseStrBody.eq_def]; simp

theorem parseStrBody_escQuote (cs : List Char) :
    parseStrBody ('\\' :: '"' :: cs) = consFst '"' (parseStrBody cs) := by
  rw [parseStrBody.eq_def]; simp

theorem parseStrBody_escBackslash (cs : List Char) :
    parseStrBody ('\\' :: '\\' :: cs) = consFst '\\' (parseStrBody cs) := by
  rw [parseStrBody.eq_def]; simp

theorem parseStrBody_escN (cs : List Char) :
    parseStrBody ('\\' :: 'n' :: cs) = consFst '\n' (parseStrBody cs) := by
  rw [parseStrBody.eq_def]; simp

theorem parseStrBody_escT (cs : List Char) :
    parseStrBody ('\\' :: 't' :: cs) = consFst '\t' (parseStrBody cs) := by
  rw [parseStrBody.eq_def]; simp

theorem parseStrBody_escR (cs : List Char) :
    parseStrBody ('\\' :: 'r' :: cs) = consFst '\r' (parseStrBody cs) := by
  rw [parseStrBody.eq_def]; simp

theorem parseStrBody_escB (cs : List Char) :
    parseStrBody ('\\' :: 'b' :: cs) = consFst (Char.ofNat 8) (parseStrBody cs) := by
  rw [parseStrBody.eq_def]; simp

theorem parseStrBody_escF (cs : List Char) :
    parseStrBody ('\\' :: 'f' :: cs) = consFst (Char.ofNat 12) (parseStrBody cs) := by
  rw [parseStrBody.eq_def]; simp

theorem parseStrBody_escU (h1 h2 h3 h4 : Char) (cs : List Char) :
    parseStrBody ('\\' :: 'u' :: h1 :: h2 :: h3 :: h4 :: cs) =
      (match hexVal h1, hexVal h2, hexVal h3, hexVal h4 with
       | some a, some b, some c2, some d =>
         consFst (Char.ofNat (4096 * a + 256 * b + 16 * c2 + d)) (parseStrBody cs)
       | _, _, _, _ => none) := by
  rw [parseStrBody.eq_def]; simp

theorem parseStrBody_other (c : Char) (hq : ¬c = '"') (hb : ¬c = '\\') (cs : List Char) :
    parseStrBody (c :: cs) = consFst c (parseStrBody cs) := by
  rw [parseStrBody.eq_def]; simp [hq, hb]

theorem parseStrBody_escape (cs : List Char) :
    ∀ rest, parseStrBody (escape cs ++ '"' :: rest) = some (cs, rest) := by
  induction cs with
  | nil => intro rest; simpa [escape] using parseStrBody_closeQuote rest
  | cons c cs ih =>
    intro rest
    rw [show escape (c :: cs) = escapeChar c ++ escape cs from rfl, List.append_assoc]
    by_cases h1 : c = '"'
    · subst h1
      simp [escapeChar, parseStrBody_escQuote, ih, consFst]
    by_cases h2 : c = '\\'
    · subst h2
      simp [escapeChar, parseStrBody_escBackslash, ih, consFst]
    by_cases h3 : c = '\n'
    · subst h3
      simp [escapeChar, parseStrBody_escN, ih, consFst]
    by_cases h4 : c = '\t'
    · subst h4
      simp [escapeChar, parseStrBody_escT, ih, consFst]
    by_cases h5 : c = '\r'
    · subst h5
      simp [escapeChar, parseStrBody_escR, ih, consFst]
    by_cases h6 : c.toNat = 8
    · have hc : c = Char.ofNat 8 := by rw [← h6, Char.ofNat_toNat]
      rw [show escapeChar c = [ '\\' , 'b' ] by simp [escapeChar, h1, h2, h3, h4, h5, h6]]
      simp [parseStrBody_escB, ih, consFst, hc]
    by_cases h7 : c.toNat = 12
    · have hc : c = Char.ofNat 12 := by rw [← h7, Char.ofNat_toNat]
      rw [show escapeChar c = [ '\\' , 'f' ] by simp [escapeChar, h1, h2, h3, h4, h5, h6, h7]]
      simp [parseStrBody_escF, ih, consFst, hc]
    by_cases h8 : c.toNat < 32
    · have hdiv : c.toNat / 16 < 16 := by omega
      have hmod : c.toNat % 16 < 16 := by omega
      rw [show escapeChar c =
            [ '\\' , 'u' , '0' , '0' , hexDigit (c.toNat / 16), hexDigit (c.toNat % 16) ] by
          simp [escapeChar, h1, h2, h3, h4, h5, h6, h7, h8]]
      rw [show ([ '\\' , 'u' , '0' , '0' , hexDigit (c.toNat / 16), hexDigit (c.toNat % 16) ]
            ++ (escape cs ++ '"' :: rest)) =
          '\\' :: 'u' :: '0' :: '0' :: hexDigit (c.toNat / 16) :: hexDigit (c.toNat % 16) ::
            (escape cs ++ '"' :: rest) from rfl]
      rw [parseStrBody_escU]
      rw [show hexVal '0' = some 0 from rfl,
          hexVal_hexDigit _ hdiv, hexVal_hexDigit _ hmod]
      have harith : 4096 * 0 + 256 * 0 + 16 * (c.toNat / 16) + c.toNat % 16 = c.toNat := by
        omega
      simp only [harith, Char.ofNat_toNat, ih, consFst]
    · rw [show escapeChar c = [c] by simp [escapeChar, h1, h2, h3, h4, h5, h6, h7, h8]]
      rw [show ([c] ++ (escape cs ++ '"' :: rest)) = c :: (escape cs ++ '"' :: rest) from rfl]
      rw [parseStrBody_other c h1 h2, ih, consFst]

/-! ## Round-trip of the integer serialization -/

theorem digitChar_isDigit : ∀ d, d < 10 → ('0' ≤ digitChar d ∧ digitChar d ≤ '9') := by decide

theorem digitChar_toNat : ∀ d, d < 10 → (digitChar d).toNat - 48 = d := by decide

theorem digitChar_ne : ∀ d, d < 10 →
    digitChar d ≠ '-' ∧ digitChar d ≠ '"' ∧ digitChar d ≠ '[' ∧ digitChar d ≠ '{' ∧
    digitChar d ≠ ']' ∧ digitChar d ≠ '}' := by decide

theorem natDigitsBE_lt (n : Nat) : ∀ d ∈ natDigitsBE n, d < 10 := by
  induction n using Nat.strong_induction_on with
  | _ n ih =>
    rw [natDigitsBE.eq_def]
    split
    · intro d hd
      simp only [List.mem_singleton] at hd
      omega
    · intro d hd
      rw [List.mem_append, List.mem_singleton] at hd
      rcases hd with h | h
      · exact ih (n / 10) (Nat.div_lt_self (by omega) (by omega)) d h
      · omega

theorem natDigitsBE_ne_nil (n : Nat) : natDigitsBE n ≠ [] := by
  rw [natDigitsBE.eq_def]
  split <;> simp

theorem natDigitsBE_head (n : Nat) : ∃ d t, natDigitsBE n = d :: t ∧ d < 10 := by
  cases h : natDigitsBE n with
  | nil => exact absurd h (natDigitsBE_ne_nil n)
  | cons d t => exact ⟨d, t, rfl, natDigitsBE_lt n d (h ▸ List.mem_cons_self d t)⟩

theorem natDigitsBE_foldl (n : Nat) :
    (natDigitsBE n).foldl (fun a d => 10 * a + d) 0 = n := by
  induction n using Nat.strong_induction_on with
  | _ n ih =>
    rw [natDigitsBE.eq_def]
    split
    · simp
    · rw [List.foldl_append, ih (n / 10) (Nat.div_lt_self (by omega) (by omega))]
      simp only [List.foldl_cons, List.foldl_nil]
      omega

theorem parseDigits_nil (acc : Nat) : parseDigits [] acc = (acc, []) := rfl

theorem parseDigits_cons (c : Char) (cs : List Char) (acc : Nat) :
    parseDigits (c :: cs) acc =
      if '0' ≤ c ∧ c ≤ '9' then parseDigits cs (10 * acc + (c.toNat - 48))
      else (acc, c :: cs) := rfl

theorem parseDigits_append (ds : List Nat) :
    ∀ rest acc, (∀ d ∈ ds, d < 10) → noDigitHead rest →
      parseDigits (ds.map digitChar ++ rest) acc =
        (ds.foldl (fun a d => 10 * a + d) acc, rest) := by
  induction ds with
  | nil =>
    intro rest acc _ hrest
    cases rest with
    | nil => simp [parseDigits_nil]
    | cons c cs =>
      simp only [noDigitHead] at hrest
      simp [parseDigits_cons, hrest]
  | cons d ds ih =>
    intro rest acc hds hrest
    have hd : d < 10 := hds d (List.mem_cons_self d ds)
    simp only [List.map_cons, List.cons_append, parseDigits_cons,
      if_pos (digitChar_isDigit d hd), digitChar_toNat d hd, List.foldl_cons]
    exact ih rest (10 * acc + d) (fun x hx => hds x (List.mem_cons_of_mem d hx)) hrest

theorem parseInt_neg_head (d : Char) (ds : List Char) :
    parseInt ('-' :: d :: ds) =
      (if '0' ≤ d ∧ d ≤ '9' then
        some (-((parseDigits (d :: ds) 0).1 : Int), (parseDigits (d :: ds) 0).2)
      else none) := rfl

theorem parseInt_nonneg_head (c : Char) (cs : List Char) (h : ¬c = '-') :
    parseInt (c :: cs) =
      (if '0' ≤ c ∧ c ≤ '9' then
        some (((parseDigits (c :: cs) 0).1 : Int), (parseDigits (c :: cs) 0).2)
      else none) := by
  rw [parseInt.eq_def]
  simp [h]

theorem parseDigits_natChars (m : Nat) (rest : List Char) (hrest : noDigitHead rest) :
    parseDigits (natChars m ++ rest) 0 = (m, rest) := by
  rw [show natChars m = (natDigitsBE m).map digitChar from rfl,
    parseDigits_append (natDigitsBE m) rest 0 (natDigitsBE_lt m) hrest,
    natDigitsBE_foldl m]

theorem parseInt_serializeInt (n : Int) (rest : List Char) (hrest : noDigitHead rest) :
    parseInt (serializeInt n ++ rest) = some (n, rest) := by
  by_cases hn : n < 0
  · rw [show serializeInt n = '-' :: natChars (-n).toNat by simp [serializeInt, hn]]
    obtain ⟨d, t, hd, hlt⟩ := natDigitsBE_head (-n).toNat
    have hnc : natChars (-n).toNat = digitChar d :: t.map digitChar := by
      rw [show natChars (-n).toNat = (natDigitsBE (-n).toNat).map digitChar from rfl, hd,
        List.map_cons]
    rw [hnc, List.cons_append, List.cons_append, parseInt_neg_head,
      if_pos (digitChar_isDigit d hlt)]
    rw [show (digitChar d :: (t.map digitChar ++ rest)) = natChars (-n).toNat ++ rest by
      rw [hnc, List.cons_append]]
    rw [parseDigits_natChars (-n).toNat rest hrest]
    have hcast : (((-n).toNat : Int)) = -n := by omega
    simp only [hcast]
    norm_num
  · rw [show serializeInt n = natChars n.toNat by simp [serializeInt, hn]]
    obtain ⟨d, t, hd, hlt⟩ := natDigitsBE_head n.toNat
    have hnc : natChars n.toNat = digitChar d :: t.map digitChar := by
      rw [show natChars n.toNat = (natDigitsBE n.toNat).map digitChar from rfl, hd,
        List.map_cons]
    rw [hnc, List.cons_append, parseInt_nonneg_head _ _ (digitChar_ne d hlt).1,
      if_pos (digitChar_isDigit d hlt)]
    rw [show (digitChar d :: (t.map digitChar ++ rest)) = natChars n.toNat ++ rest by
      rw [hnc, List.cons_append]]
    rw [parseDigits_natChars n.toNat rest hrest]
    have hcast : ((n.toNat : Int)) = n := by omega
    simp only [hcast]

/-! ## Head shape of a serialized value -/

theorem serialize_head (v : JVal) : ∃ c t, serialize v = c :: t ∧ c ≠ ']' := by
  match v with
  | .str s =>
    exact ⟨'"', escape s.data ++ [ '"' ], by simp [serialize], by decide⟩
  | .int n =>
    by_cases hn : n < 0
    · exact ⟨'-', natChars (-n).toNat, by simp [serialize, serializeInt, hn], by decide⟩
    · obtain ⟨d, t, hd, hlt⟩ := natDigitsBE_head n.toNat
      refine ⟨digitChar d, t.map digitChar, ?_, (digitChar_ne d hlt).2.2.2.2.1⟩
      rw [show serialize (.int n) = serializeInt n from by simp [serialize],
        show serializeInt n = natChars n.toNat by simp [serializeInt, hn],
        show natChars n.toNat = (natDigitsBE n.toNat).map digitChar from rfl, hd, List.map_cons]
  | .arr [] =>
    exact ⟨'[', [ ']' ], by simp [serialize], by decide⟩
  | .arr (v1 :: vs) =>
    exact ⟨'[', serialize v1 ++ itemsTail vs, by simp [serialize], by decide⟩
  | .obj [] =>
    exact ⟨'{', [ '}' ], by simp [serialize], by decide⟩
  | .obj ((k, w) :: ms) =>
    exact ⟨'{', kvChars k w ++ fieldsTail ms, by simp [serialize], by decide⟩

/-! ## Step lemmas for the value parser -/

theorem parseVal_cons_eq (f : Nat) (c : Char) (cs : List Char) :
    parseVal (f + 1) (c :: cs) =
      (if c = '"' then
        match parseStrBody cs with
        | some (s, rest) => some (JVal.str (String.mk s), rest)
        | none => none
      else if c = '[' then
        match cs with
        | [] => none
        | d :: ds =>
          if d = ']' then some (JVal.arr [], ds)
          else
            match parseVal f (d :: ds) with
            | some (v, rest) =>
              (match parseItems f rest with
               | some (vs, rest2) => some (JVal.arr (v :: vs), rest2)
               | none => none)
            | none => none
      else if c = '{' then
        match cs with
        | [] => none
        | d :: ds =>
          if d = '}' then some (JVal.obj [], ds)
          else if d = '"' then
            match parseStrBody ds with
            | some (k, rest) =>
              (match rest with
               | ':' :: ' ' :: rest2 =>
                 (match parseVal f rest2 with
                  | some (v, rest3) =>
                    (match parseFields f rest3 with
                     | some (ms, rest4) => some (JVal.obj ((String.mk k, v) :: ms), rest4)
                     | none => none)
                  | none => none)
               | _ => none)
            | none => none
          else none
      else
        match parseInt (c :: cs) with
        | some (n, rest) => some (JVal.int n, rest)
        | none => none) := rfl

theorem parseItems_cons_eq (f : Nat) (c : Char) (cs : List Char) :
    parseItems (f + 1) (c :: cs) =
      (if c = ']' then some ([], cs)
      else if c = ',' then
        match cs with
        | ' ' :: cs2 =>
          (match parseVal f cs2 with
           | some (v, rest) =>
             (match parseItems f rest with
              | some (vs, rest2) => some (v :: vs, rest2)
              | none => none)
           | none => none)
        | _ => none
      else none) := rfl

theorem parseFields_cons_eq (f : Nat) (c : Char) (cs : List Char) :
    parseFields (f + 1) (c :: cs) =
      (if c = '}' then some ([], cs)
      else if c = ',' then
        match cs with
        | ' ' :: '"' :: cs2 =>
          (match parseStrBody cs2 with
           | some (k, rest) =>
             (match rest with
              | ':' :: ' ' :: rest2 =>
                (match parseVal f rest2 with
                 | some (v, rest3) =>
                   (match parseFields f rest3 with
                    | some (ms, rest4) => some ((String.mk k, v) :: ms, rest4)
                    | none => none)
                 | none => none)
              | _ => none)
           | none => none)
        | _ => none
      else none) := rfl

theorem parseVal_quote_of (f : Nat) (cs s rest : List Char)
    (h : parseStrBody cs = some (s, rest)) :
    parseVal (f + 1) ('"' :: cs) = some (.str (String.mk s), rest) := by
  simp [parseVal_cons_eq, h]

theorem parseVal_arr_nil (f : Nat) (cs : List Char) :
    parseVal (f + 1) ('[' :: ']' :: cs) = some (.arr [], cs) := rfl

theorem parseVal_arr_cons (f : Nat) (d : Char) (ds rest rest' : List Char)
    (v : JVal) (vs : List JVal) (hd : ¬d = ']')
    (h1 : parseVal f (d :: ds) = some (v, rest))
    (h2 : parseItems f rest = some (vs, rest')) :
    parseVal (f + 1) ('[' :: d :: ds) = some (.arr (v :: vs), rest') := by
  simp [parseVal_cons_eq, hd, h1, h2]

theorem parseVal_obj_nil (f : Nat) (cs : List Char) :
    parseVal (f + 1) ('{' :: '}' :: cs) = some (.obj [], cs) := rfl

theorem parseVal_obj_cons (f : Nat) (cs k rest1 rest2 rest3 : List Char)
    (v : JVal) (ms : List (String × JVal))
    (h0 : parseStrBody cs = some (k, ':' :: ' ' :: rest1))
    (h1 : parseVal f rest1 = some (v, rest2))
    (h2 : parseFields f rest2 = some (ms, rest3)) :
    parseVal (f + 1) ('{' :: '"' :: cs) = some (.obj ((String.mk k, v) :: ms), rest3) := by
  simp [parseVal_cons_eq, h0, h1, h2]

theorem parseVal_int_of (f : Nat) (c : Char) (cs rest : List Char) (n : Int)
    (hc1 : ¬c = '"') (hc2 : ¬c = '[') (hc3 : ¬c = '{')
    (h : parseInt (c :: cs) = some (n, rest)) :
    parseVal (f + 1) (c :: cs) = some (.int n, rest) := by
  simp [parseVal_cons_eq, hc1, hc2, hc3, h]

theorem parseItems_close (f : Nat) (cs : List Char) :
    parseItems (f + 1) (']' :: cs) = some ([], cs) := rfl

theorem parseItems_cons (f : Nat) (cs rest rest' : List Char) (v : JVal) (vs : List JVal)
    (h1 : parseVal f cs = some (v, rest))
    (h2 : parseItems f rest = some (vs, rest')) :
    parseItems (f + 1) (',' :: ' ' :: cs) = some (v :: vs, rest') := by
  simp [parseItems_cons_eq, h1, h2]

theorem parseFields_close (f : Nat) (cs : List Char) :
    parseFields (f + 1) ('}' :: cs) = some ([], cs) := rfl

theorem parseFields_cons (f : Nat) (cs k rest1 rest2 rest3 : List Char)
    (v : JVal) (ms : List (String × JVal))
    (h0 : parseStrBody cs = some (k, ':' :: ' ' :: rest1))
    (h1 : parseVal f rest1 = some (v, rest2))
    (h2 : parseFields f rest2 = some (ms, rest3)) :
    parseFields (f + 1) (',' :: ' ' :: '"' :: cs) = some ((String.mk k, v) :: ms, rest3) := by
  simp [parseFields_cons_eq, h0, h1, h2]

/-! ## Separator bookkeeping -/

theorem itemsTail_sep (vs : List JVal) (rest : List Char) : sepRest (itemsTail vs ++ rest) := by
  cases vs with
  | nil => simp [itemsTail, sepRest]
  | cons v vs => simp [itemsTail, sepRest]

theorem fieldsTail_sep (ms : List (String × JVal)) (rest : List Char) :
    sepRest (fieldsTail ms ++ rest) := by
  cases ms with
  | nil => simp [fieldsTail, sepRest]
  | cons m ms =>
    obtain ⟨k, v⟩ := m
    simp [fieldsTail, sepRest]

theorem sepRest_noDigit (rest : List Char) (h : sepRest rest) : noDigitHead rest := by
  cases rest with
  | nil => trivial
  | cons c cs =>
    simp only [sepRest] at h
    simp only [noDigitHead]
    rcases h with h | h | h <;> subst h <;> decide

/-! ## Shapes of the serializer -/

theorem serialize_str (s : String) :
    serialize (.str s) = '"' :: (escape s.data ++ [ '"' ]) := by simp [serialize]

theorem serialize_int_eq (m : Int) : serialize (.int m) = serializeInt m := by simp [serialize]

theorem serialize_arr_nil : serialize (.arr []) = [ '[' , ']' ] := by simp [serialize]

theorem serialize_arr_cons (v : JVal) (vs : List JVal) :
    serialize (.arr (v :: vs)) = '[' :: (serialize v ++ itemsTail vs) := by simp [serialize]

theorem serialize_obj_nil : serialize (.obj []) = [ '{' , '}' ] := by simp [serialize]

theorem serialize_obj_cons (k : String) (w : JVal) (ms : List (String × JVal)) :
    serialize (.obj ((k, w) :: ms)) = '{' :: (kvChars k w ++ fieldsTail ms) := by
  simp [serialize]

theorem kvChars_eq (k : String) (w : JVal) :
    kvChars k w = '"' :: (escape k.data ++ '"' :: ':' :: ' ' :: serialize w) := by
  simp [kvChars]

theorem itemsTail_nil : itemsTail [] = [ ']' ] := by simp [itemsTail]

theorem itemsTail_cons (v : JVal) (vs : List JVal) :
    itemsTail (v :: vs) = ',' :: ' ' :: (serialize v ++ itemsTail vs) := by simp [itemsTail]

theorem fieldsTail_nil : fieldsTail [] = [ '}' ] := by simp [fieldsTail]

theorem fieldsTail_cons (k : String) (w : JVal) (ms : List (String × JVal)) :
    fieldsTail ((k, w) :: ms) = ',' :: ' ' :: (kvChars k w ++ fieldsTail ms) := by
  simp [fieldsTail]

/-! ## The round-trip, by strong induction on the size of the value -/

theorem parse_serialize (n : Nat) :
    (∀ v : JVal, sizeOf v ≤ n → ∀ f rest, sepRest rest → (serialize v).length < f →
      parseVal f (serialize v ++ rest) = some (v, rest)) ∧
    (∀ vs : List JVal, sizeOf vs ≤ n → ∀ f rest, sepRest rest → (itemsTail vs).length < f →
      parseItems f (itemsTail vs ++ rest) = some (vs, rest)) ∧
    (∀ ms : List (String × JVal), sizeOf ms ≤ n → ∀ f rest, sepRest rest →
      (fieldsTail ms).length < f →
      parseFields f (fieldsTail ms ++ rest) = some (ms, rest)) := by
  induction n using Nat.strong_induction_on with
  | _ n ih =>
  refine ⟨?_, ?_, ?_⟩
  · intro v hv f rest hsep hf
    obtain ⟨f0, rfl⟩ : ∃ f0, f = f0 + 1 := ⟨f - 1, by omega⟩
    cases v with
    | str s =>
      rw [serialize_str] at hf ⊢
      rw [List.cons_append, List.append_assoc,
        show ([ '"' ] ++ rest) = '"' :: rest from rfl]
      exact parseVal_quote_of f0 _ _ _ (parseStrBody_escape s.data rest)
    | int m =>
      have hparse : parseInt (serializeInt m ++ rest) = some (m, rest) :=
        parseInt_serializeInt m rest (sepRest_noDigit rest hsep)
      rw [serialize_int_eq] at hf ⊢
      by_cases hm : m < 0
      · rw [show serializeInt m = '-' :: natChars (-m).toNat by simp [serializeInt, hm]] at hparse ⊢
        rw [List.cons_append] at hparse ⊢
        exact parseVal_int_of f0 '-' _ rest m (by decide) (by decide) (by decide) hparse
      · obtain ⟨d, t, hd, hlt⟩ := natDigitsBE_head m.toNat
        have hnc : serializeInt m = digitChar d :: t.map digitChar := by
          rw [show serializeInt m = natChars m.toNat by simp [serializeInt, hm],
            show natChars m.toNat = (natDigitsBE m.toNat).map digitChar from rfl, hd,
            List.map_cons]
        rw [hnc] at hparse ⊢
        rw [List.cons_append] at hparse ⊢
        exact parseVal_int_of f0 (digitChar d) _ rest m
          (digitChar_ne d hlt).2.1 (digitChar_ne d hlt).2.2.1 (digitChar_ne d hlt).2.2.2.1 hparse
    | arr vs =>
      cases vs with
      | nil =>
        rw [serialize_arr_nil]
        exact parseVal_arr_nil f0 rest
      | cons v1 vs =>
        have hsz : sizeOf (JVal.arr (v1 :: vs)) = 2 + sizeOf v1 + sizeOf vs := by
          simp; try omega
        rw [serialize_arr_cons] at hf ⊢
        have hlen : (serialize v1).length + (itemsTail vs).length < f0 := by
          simp only [List.length_cons, List.length_append] at hf
          omega
        obtain ⟨c1, t1, hser1, hc1⟩ := serialize_head v1
        rw [List.cons_append, List.append_assoc, hser1, List.cons_append]
        have h1 : parseVal f0 (c1 :: (t1 ++ (itemsTail vs ++ rest))) =
            some (v1, itemsTail vs ++ rest) := by
          rw [← List.cons_append, ← hser1]
          exact (ih (sizeOf v1) (by omega)).1 v1 le_rfl f0 (itemsTail vs ++ rest)
            (itemsTail_sep vs rest) (by omega)
        have h2 : parseItems f0 (itemsTail vs ++ rest) = some (vs, rest) :=
          (ih (sizeOf vs) (by omega)).2.1 vs le_rfl f0 rest hsep (by omega)
        exact parseVal_arr_cons f0 c1 _ _ _ v1 vs hc1 h1 h2
    | obj ms =>
      cases ms with
      | nil =>
        rw [serialize_obj_nil]
        exact parseVal_obj_nil f0 rest
      | cons m ms =>
        obtain ⟨k, w⟩ := m
        have hsz : sizeOf (JVal.obj ((k, w) :: ms)) = 3 + sizeOf k + sizeOf w + sizeOf ms := by
          simp; try omega
        rw [serialize_obj_cons] at hf ⊢
        have hkv : (kvChars k w).length =
            (escape k.data).length + (serialize w).length + 4 := by
          rw [kvChars_eq]
          simp
          try omega
        have hlen : (serialize w).length < f0 ∧ (fieldsTail ms).length < f0 := by
          simp only [List.length_cons, List.length_append] at hf
          omega
        have hin : ('{' :: (kvChars k w ++ fieldsTail ms)) ++ rest =
            '{' :: '"' ::
              (escape k.data ++ ('"' :: ':' :: ' ' :: (serialize w ++ (fieldsTail ms ++ rest)))) := by
          rw [kvChars_eq]
          simp
        rw [hin]
        have h0 : parseStrBody
            (escape k.data ++ ('"' :: ':' :: ' ' :: serialize w ++ (fieldsTail ms ++ rest))) =
            some (k.data, ':' :: ' ' :: (serialize w ++ (fieldsTail ms ++ rest))) := by
          have := parseStrBody_escape k.data
            (':' :: ' ' :: (serialize w ++ (fieldsTail ms ++ rest)))
          simpa using this
        have h1 : parseVal f0 (serialize w ++ (fieldsTail ms ++ rest)) =
            some (w, fieldsTail ms ++ rest) :=
          (ih (sizeOf w) (by omega)).1 w le_rfl f0 (fieldsTail ms ++ rest)
            (fieldsTail_sep ms rest) (by omega)
        have h2 : parseFields f0 (fieldsTail ms ++ rest) = some (ms, rest) :=
          (ih (sizeOf ms) (by omega)).2.2 ms le_rfl f0 rest hsep (by omega)
        exact parseVal_obj_cons f0 _ k.data _ _ _ w ms h0 h1 h2
  · intro vs hvs f rest hsep hf
    obtain ⟨f0, rfl⟩ : ∃ f0, f = f0 + 1 := ⟨f - 1, by omega⟩
    cases vs with
    | nil =>
      rw [itemsTail_nil]
      exact parseItems_close f0 rest
    | cons v1 vs =>
      have hsz : sizeOf (v1 :: vs) = 1 + sizeOf v1 + sizeOf vs := by
        simp; try omega
      rw [itemsTail_cons] at hf ⊢
      have hlen : (serialize v1).length + (itemsTail vs).length < f0 := by
        simp only [List.length_cons, List.length_append] at hf
        omega
      rw [List.cons_append, List.cons_append, List.append_assoc]
      have h1 : parseVal f0 (serialize v1 ++ (itemsTail vs ++ rest)) =
          some (v1, itemsTail vs ++ rest) :=
        (ih (sizeOf v1) (by omega)).1 v1 le_rfl f0 (itemsTail vs ++ rest)
          (itemsTail_sep vs rest) (by omega)
      have h2 : parseItems f0 (itemsTail vs ++ rest) = some (vs, rest) :=
        (ih (sizeOf vs) (by omega)).2.1 vs le_rfl f0 rest hsep (by omega)
      exact parseItems_cons f0 _ _ _ v1 vs h1 h2
  · intro ms hms f rest hsep hf
    obtain ⟨f0, rfl⟩ : ∃ f0, f = f0 + 1 := ⟨f - 1, by omega⟩
    cases ms with
    | nil =>
      rw [fieldsTail_nil]
      exact parseFields_close f0 rest
    | cons m ms =>
      obtain ⟨k, w⟩ := m
      have hsz : sizeOf ((k, w) :: ms) = 2 + sizeOf k + sizeOf w + sizeOf ms := by
        simp; try omega
      rw [fieldsTail_cons] at hf ⊢
      have hkv : (kvChars k w).length =
          (escape k.data).length + (serialize w).length + 4 := by
        rw [kvChars_eq]
        simp
        try omega
      have hlen : (serialize w).length < f0 ∧ (fieldsTail ms).length < f0 := by
        simp only [List.length_cons, List.length_append] at hf
        omega
      have hin : (',' :: ' ' :: (kvChars k w ++ fieldsTail ms)) ++ rest =
          ',' :: ' ' :: '"' ::
            (escape k.data ++ ('"' :: ':' :: ' ' :: (serialize w ++ (fieldsTail ms ++ rest)))) := by
        rw [kvChars_eq]
        simp
      rw [hin]
      have h0 : parseStrBody
          (escape k.data ++ ('"' :: ':' :: ' ' :: serialize w ++ (fieldsTail ms ++ rest))) =
          some (k.data, ':' :: ' ' :: (serialize w ++ (fieldsTail ms ++ rest))) := by
        have := parseStrBody_escape k.data
          (':' :: ' ' :: (serialize w ++ (fieldsTail ms ++ rest)))
        simpa using this
      have h1 : parseVal f0 (serialize w ++ (fieldsTail ms ++ rest)) =
          some (w, fieldsTail ms ++ rest) :=
        (ih (sizeOf w) (by omega)).1 w le_rfl f0 (fieldsTail ms ++ rest)
          (fieldsTail_sep ms rest) (by omega)
      have h2 : parseFields f0 (fieldsTail ms ++ rest) = some (ms, rest) :=
        (ih (sizeOf ms) (by omega)).2.2 ms le_rfl f0 rest hsep (by omega)
      exact parseFields_cons f0 _ k.data _ _ _ w ms h0 h1 h2

/-! ## Unfolding equations of the run semantics -/

theorem run1_exn_eq (d : String) :
    run1 (.exn d) =
      { output := [script1ErrorBanner, d], uncaught := some nameErrorDetail, posts := 1 } := rfl

theorem run1_ok_eq (s : Nat) (t : String) :
    run1 (.ok s t) =
      if 400 ≤ s ∧ s < 600 then
        { output := [script1ErrorBanner, httpErrorDetail s, t], uncaught := none, posts := 1 }
      else
        { output := [t], uncaught := none, posts := 1 } := rfl

theorem run2_none_eq (p : PostOutcome) :
    run2 none p =
      { output := [tracebackText fileNotFoundDetail], uncaught := none, posts := 0 } := rfl

theorem run2_some_exn_eq (c : String) (d : String) :
    run2 (some c) (.exn d) =
      { output := [tracebackText d], uncaught := none, posts := 1 } := rfl

theorem run2_some_ok_eq (c : String) (s : Nat) (t : String) :
    run2 (some c) (.ok s t) =
      if 400 ≤ s ∧ s < 600 then
        { output := [t, tracebackText (httpErrorDetail s)], uncaught := none, posts := 1 }
      else
        { output := [t], uncaught := none, posts := 1 } := rfl

/-! ## The claims -/

/-- Claim C6: for every valid payload mapping (string keys to nested
strings, integers, and sequences of objects), serializing it to JSON and
parsing the result back yields a mapping equal to the original: the
serialization round-trips losslessly.  Stated for every `JVal`, which
includes every such mapping. -/
theorem dumps_loads_roundtrip (v : JVal) : loads (dumps v) = some v := by
  have h := (parse_serialize (sizeOf v)).1 v le_rfl ((serialize v).length + 1) []
    trivial (Nat.lt_succ_self _)
  rw [List.append_nil] at h
  simp only [loads, dumps]
  rw [h]

/-- Claim C1 (failing input): on a transport failure (for example
connection refused), script 1's broad `except` handler prints the banner
and the exception detail, but then evaluates `r.text` although `r` was
never bound, so a `NameError` escapes the handler and the script does
not terminate normally — contradicting the claim that every failure is
caught, printed and suppressed. -/
theorem script1_transport_error_uncaught :
    (run1 (.exn "ConnectionError: [Errno 111] Connection refused")).uncaught =
        some nameErrorDetail ∧
      (run1 (.exn "ConnectionError: [Errno 111] Connection refused")).output =
        [script1ErrorBanner, "ConnectionError: [Errno 111] Connection refused"] :=
  ⟨rfl, rfl⟩

/-- Claim C2: for every run in which the server returns a 2xx response,
each script reports success by printing exactly the raw response body
and nothing else, and terminates normally. -/
theorem scripts_print_exactly_body_on_2xx (status : Nat) (text content : String)
    (h1 : 200 ≤ status) (h2 : status < 300) :
    (run1 (.ok status text)).output = [text] ∧
      (run1 (.ok status text)).uncaught = none ∧
      (run2 (some content) (.ok status text)).output = [text] ∧
      (run2 (some content) (.ok status text)).uncaught = none := by
  have hcond : ¬(400 ≤ status ∧ status < 600) := by omega
  rw [run1_ok_eq, if_neg hcond, run2_some_ok_eq, if_neg hcond]
  exact ⟨rfl, rfl, rfl, rfl⟩

theorem scripts_print_exactly_body_on_2xx_witness :
    (run1 (.ok 200 "response-body")).output = ["response-body"] ∧
      (run1 (.ok 200 "response-body")).uncaught = none ∧
      (run2 (some "<xml/>") (.ok 200 "response-body")).output = ["response-body"] ∧
      (run2 (some "<xml/>") (.ok 200 "response-body")).uncaught = none :=
  scripts_print_exactly_body_on_2xx 200 "response-body" "<xml/>" (by decide) (by decide)

/-- Claim C3: for every run in which the server returns a 4xx/5xx
response, each script reports failure and its printed output includes
both the exception detail and the response body. -/
theorem scripts_report_error_and_body_on_http_error (status : Nat) (text content : String)
    (h1 : 400 ≤ status) (h2 : status < 600) :
    script1ErrorBanner ∈ (run1 (.ok status text)).output ∧
      httpErrorDetail status ∈ (run1 (.ok status text)).output ∧
      text ∈ (run1 (.ok status text)).output ∧
      (run1 (.ok status text)).uncaught = none ∧
      text ∈ (run2 (some content) (.ok status text)).output ∧
      tracebackText (httpErrorDetail status) ∈ (run2 (some content) (.ok status text)).output ∧
      (run2 (some content) (.ok status text)).uncaught = none := by
  rw [run1_ok_eq, if_pos ⟨h1, h2⟩, run2_some_ok_eq, if_pos ⟨h1, h2⟩]
  refine ⟨?_, ?_, ?_, rfl, ?_, ?_, rfl⟩ <;> simp

theorem scripts_report_error_and_body_on_http_error_witness :
    script1ErrorBanner ∈ (run1 (.ok 404 "not found")).output ∧
      httpErrorDetail 404 ∈ (run1 (.ok 404 "not found")).output ∧
      "not found" ∈ (run1 (.ok 404 "not found")).output ∧
      (run1 (.ok 404 "not found")).uncaught = none ∧
      "not found" ∈ (run2 (some "<xml/>") (.ok 404 "not found")).output ∧
      tracebackText (httpErrorDetail 404) ∈ (run2 (some "<xml/>") (.ok 404 "not found")).output ∧
      (run2 (some "<xml/>") (.ok 404 "not found")).uncaught = none :=
  scripts_report_error_and_body_on_http_error 404 "not found" "<xml/>" (by decide) (by decide)

/-- Claim C4: script 2's multipart request attaches the local XML file
under the field name `xml`, with the file's content passed through
byte-for-byte, alongside a `json` field holding the serialized three-key
mapping (`mappingHasName`, `attachedToProject`, `rdf-schema#label`). -/
theorem script2_multipart_shape (content : String) :
    (script2Request content).files = [("xml", ("BEOLTEImapping.xml", content))] ∧
      (script2Request content).formData = [("json", dumps mappingParams)] ∧
      topKeys mappingParams =
        ["http://api.knora.org/ontology/knora-api/v2#mappingHasName",
         "http://api.knora.org/ontology/knora-api/v2#attachedToProject",
         "http://www.w3.org/2000/01/rdf-schema#label"] :=
  ⟨rfl, rfl, rfl⟩

/-- Claim C5: script 1 posts to `http://localhost/v1/resources` through
the proxy `http://localhost:3333`, with content type
`application/json; charset=utf8`, basic-auth credentials, and a JSON
body whose top-level fields are exactly `restype_id`, `label`,
`project_id` and `properties`, where `properties` maps the two property
IRIs to arrays of value objects of the shapes
`richtext_value : (xml, mapping_id)` and `int_value : int`. -/
theorem script1_request_shape :
    script1Request.url = "http://localhost/v1/resources" ∧
      script1Request.httpProxy = "http://localhost:3333" ∧
      script1Request.contentType = "application/json; charset=utf8" ∧
      script1Request.auth = ("root", "test") ∧
      script1Request.body = dumps paramsSecond ∧
      topKeys paramsSecond = ["restype_id", "label", "project_id", "properties"] ∧
      objGet paramsSecond "restype_id" =
        some (.str "http://www.knora.org/ontology/anything#Thing") ∧
      objGet paramsSecond "label" = some (.str "A thing to test with") ∧
      objGet paramsSecond "project_id" =
        some (.str "http://data.knora.org/projects/anything") ∧
      objGet paramsSecond "properties" = some (.obj [
        ("http://www.knora.org/ontology/anything#hasText", .arr [
          .obj [("richtext_value", .obj [
            ("xml", .str xmlLiteral),
            ("mapping_id",
             .str "http://data.knora.org/projects/standoff/mappings/StandardMapping")])]]),
        ("http://www.knora.org/ontology/anything#hasInteger", .arr [
          .obj [("int_value", .int 12345)]])]) := by
  refine ⟨rfl, rfl, rfl, rfl, rfl, rfl, ?_, ?_, ?_, ?_⟩ <;> rfl

/-- Claim C7: if the local XML file script 2 reads does not exist, the
run is reported as a failure with a printed diagnostic (the exception
detail), not a silent no-op, and no POST is issued, so none succeeds. -/
theorem script2_missing_file_failure (post : PostOutcome) :
    (run2 none post).output = [tracebackText fileNotFoundDetail] ∧
      (run2 none post).output ≠ [] ∧
      (run2 none post).uncaught = none ∧
      (run2 none post).posts = 0 :=
  ⟨rfl, by rw [run2_none_eq]; simp, rfl, rfl⟩

/-- Claim C8 (counterexample): a script 2 invocation whose XML file is
missing issues zero POST requests, not exactly one, because `open`
raises while the `files=` argument is being built, before the request is
sent. -/
theorem script2_missing_file_posts_ne_one :
    (run2 none (.ok 201 "created")).posts = 0 ∧
      (run2 none (.ok 201 "created")).posts ≠ 1 :=
  ⟨rfl, by decide⟩

/-- Claim C8 (amended): each script invocation issues at most one
outbound POST and never a second attempt; script 1 issues exactly one on
every run, and script 2 issues exactly one whenever its XML file opens
successfully, and zero when opening the file fails; neither script
passes a `timeout=` to `requests.post`. -/
theorem scripts_post_at_most_once (p q : PostOutcome) (file : Option String)
    (content : String) :
    (run1 p).posts = 1 ∧
      (run2 file q).posts ≤ 1 ∧
      (run2 (some content) q).posts = 1 ∧
      script1Request.timeout = none ∧
      (script2Request content).timeout = none := by
  refine ⟨?_, ?_, ?_, rfl, rfl⟩
  · cases p with
    | exn d => rfl
    | ok s t =>
      rw [run1_ok_eq]
      split <;> rfl
  · cases file with
    | none => simp [run2_none_eq]
    | some c =>
      cases q with
      | exn d => simp [run2_some_exn_eq]
      | ok s t =>
        rw [run2_some_ok_eq]
        split <;> simp
  · cases q with
    | exn d => rfl
    | ok s t =>
      rw [run2_some_ok_eq]
      split <;> rfl

/-- Claim C9: the first assignment to `params` in script 1 (the dict
with keys `_link` and `bold`) is dead: the body sent is exactly the JSON
serialization of the second `params` dict, the request equals the one
the script would send with the first assignment removed, and the strings
`_link` and `bold` never occur as keys anywhere in the transmitted
payload. -/
theorem script1_first_params_dead :
    script1Request = script1RequestNoDead ∧
      script1Params = paramsSecond ∧
      script1Request.body = dumps paramsSecond ∧
      "_link" ∉ allKeys script1Params ∧
      "bold" ∉ allKeys script1Params := by
  refine ⟨rfl, rfl, rfl, ?_, ?_⟩ <;>
    · simp only [script1Params, paramsSecond, allKeys, allKeysArr, allKeysObj]
      decide

/-- Claim C10: script 2 prints the response body exactly once, before the
status check, for every received response: the output starts with the
body, and a 4xx/5xx status only appends the traceback after it, never
suppressing the body. -/
theorem script2_body_printed_first_always (content text : String) (status : Nat) :
    (run2 (some content) (.ok status text)).output =
      text :: (if 400 ≤ status ∧ status < 600
               then [tracebackText (httpErrorDetail status)] else []) := by
  rw [run2_some_ok_eq]
  by_cases h : 400 ≤ status ∧ status < 600 <;> simp [h]

end KnoraScripts
